import Mathlib

/-!
Verification of the bytebot python-sidecar security core
(`src/packages/python-sidecar/src/security/`): the boundary guard
(`isolation.py`), the OWASP pattern scanner (`owasp_validator.py`) and the
secure executor (`secure_executor.py`), shallowly embedded in Lean 4.

Paths are modelled lexically: a POSIX path is an absoluteness flag plus a
list of segments (each a list of characters); `Path.resolve()` is modelled
as `..`-normalisation of an absolute path (symlinks are outside the model).
The process-wide state touched by the code (working directory, filesystem)
is an explicit `World` value, and the Python `exec` primitive is an abstract
parameter `PyExec` supplied by the caller of `execute`.
-/

/-- A path segment: a list of characters (never containing a slash once
produced by `parsePath`). -/
abbrev Seg := List Char

/-- Lexical model of a `pathlib` path: absoluteness flag plus segments, the
result of dropping empty and `.` components (as `PurePosixPath` does). -/
structure PyPath where
  absolute : Bool
  segs : List Seg
deriving DecidableEq, Repr

/-- Split a character list on `/`, accumulating the current piece reversed. -/
def splitAux (cur : List Char) : List Char → List (List Char)
  | [] => [cur.reverse]
  | c :: rest => if c == '/' then cur.reverse :: splitAux [] rest else splitAux (c :: cur) rest

/-- Components of a path string: split on slashes, drop empty and `.` pieces
(mirrors `PurePosixPath` parsing, which discards both). -/
def parseSegs (cs : List Char) : List Seg :=
  (splitAux [] cs).filter (fun s => !s.isEmpty && s != ['.'])

/-- Whether a character list begins with a slash. -/
def headIsSlash : List Char → Bool
  | [] => false
  | c :: _ => c == '/'

/-- Parse a path string into the lexical path model (`Path(path)`). -/
def parsePath (s : String) : PyPath :=
  { absolute := headIsSlash s.data, segs := parseSegs s.data }

/-- Normalise `..` segments: a `..` pops the previously accepted segment, or
is dropped at the root (POSIX `resolve` behaviour on an absolute path). The
accumulator holds accepted segments in reverse. -/
def normSegs (acc : List Seg) : List Seg → List Seg
  | [] => acc.reverse
  | s :: rest =>
    if s == ['.', '.'] then
      match acc with
      | [] => normSegs [] rest
      | _ :: acc2 => normSegs acc2 rest
    else normSegs (s :: acc) rest

/-- Model of `Path.resolve()`: make the path absolute against the process
working directory `cwd`, then normalise `..` segments. Symlink resolution is
outside the lexical model. -/
def PyPath.resolve (cwd : PyPath) (p : PyPath) : PyPath :=
  { absolute := true, segs := normSegs [] ((if p.absolute then [] else cwd.segs) ++ p.segs) }

/-- Model of the `/` operator on paths: an absolute right operand replaces
the left one, otherwise segments are appended. -/
def joinPath (a b : PyPath) : PyPath :=
  if b.absolute then b else { absolute := a.absolute, segs := a.segs ++ b.segs }

/-- Model of `PurePath.is_relative_to`: same anchor and the candidate root's
segments are a prefix of the target's segments. -/
def PyPath.is_relative_to (t root : PyPath) : Bool :=
  root.absolute == t.absolute && root.segs.isPrefixOf t.segs

/-- Join segments with `/` characters. -/
def joinSegs : List Seg → List Char
  | [] => []
  | [s] => s
  | s :: rest => s ++ '/' :: joinSegs rest

/-- Render a path back to a string (`str(Path)`), used for the injected
`get_project_root` capability. -/
def pathToStr (p : PyPath) : String :=
  String.mk ((if p.absolute then ['/'] else []) ++ joinSegs p.segs)

/-- String form of a relative path given by its segments; the empty relative
path renders as `.` exactly as `str(PurePosixPath())` does. -/
def relPathStr (segs : List Seg) : String :=
  if segs.isEmpty then "." else String.mk (joinSegs segs)

/-- A segment is well formed when it is nonempty, is not `.`, and contains
no slash — the invariant of every segment produced by `parseSegs`. -/
def baseClean (s : Seg) : Bool :=
  !s.isEmpty && s != ['.'] && !(s.contains '/')

/-- A path is canonical when it is absolute and each segment is well formed
and is not `..` — the invariant `Path(root).resolve()` establishes for the
project root stored by `ProjectIsolation.__init__`. -/
def PyPath.isCanonical (p : PyPath) : Bool :=
  p.absolute && p.segs.all (fun s => baseClean s && s != ['.', '.'])

/-- The boundary guard of `isolation.py`: holds the canonicalized project
root. `enable_audit` only gates logging, which the embedding drops. -/
structure ProjectIsolation where
  project_root : PyPath
  enable_audit : Bool
deriving DecidableEq, Repr

/-- Model of `ProjectIsolation.__init__`: resolve the given root against the
working directory and fail (`ValueError`) when it does not exist; existence
is supplied as an abstract filesystem predicate. -/
def ProjectIsolation.init (fs_exists : PyPath → Bool) (cwd : PyPath) (project_root : String)
    (enable_audit : Bool) : Except String ProjectIsolation :=
  let root := PyPath.resolve cwd (parsePath project_root)
  if fs_exists root then Except.ok { project_root := root, enable_audit := enable_audit }
  else Except.error ("Project root does not exist: " ++ project_root)

/-- Model of `ProjectIsolation.validate_path`: resolve the path (absolute
paths directly, relative paths joined to the project root first) and accept
it exactly when the resolved path is relative to the project root, else fail
with the `PermissionError` message. `cwd` models the process working
directory consulted by `Path.resolve()`. -/
def ProjectIsolation.validate_path (iso : ProjectIsolation) (cwd : PyPath) (path : String) :
    Except String PyPath :=
  let p := parsePath path
  let target := if p.absolute then PyPath.resolve cwd p
                else PyPath.resolve cwd (joinPath iso.project_root p)
  if target.is_relative_to iso.project_root then Except.ok target
  else Except.error ("Path traversal detected: " ++ path)

/-- The exception kinds `validate_path` can let escape: the
`PermissionError` it raises itself on a containment failure, and the
`ValueError` that `Path.resolve()` raises on a path string with an embedded
NUL byte, which the bare `raise` of the final `except` clause propagates. -/
inductive PyErr where
  | permission (msg : String) : PyErr
  | valueError (msg : String) : PyErr
deriving DecidableEq, Repr

/-- Model of `ProjectIsolation.validate_path` with the exception kinds kept
apart: a path string containing a NUL byte makes `Path.resolve()` raise
`ValueError("embedded null byte")`, which the method re-raises; on NUL-free
inputs the behaviour is that of `validate_path`, with the containment
failure raised as `PermissionError`. -/
def ProjectIsolation.validate_path_errs (iso : ProjectIsolation) (cwd : PyPath) (path : String) :
    Except PyErr PyPath :=
  if path.data.contains (Char.ofNat 0) then
    Except.error (PyErr.valueError "embedded null byte")
  else
    match iso.validate_path cwd path with
    | Except.ok q => Except.ok q
    | Except.error e => Except.error (PyErr.permission e)

/-- Model of `ProjectIsolation.is_safe_path`: run the validation and catch
only the `PermissionError`, returning a boolean; any other exception — here
the `ValueError` for a NUL byte in the path — is not caught and propagates,
so the check is itself fallible. -/
def ProjectIsolation.is_safe_path (iso : ProjectIsolation) (cwd : PyPath) (path : String) :
    Except PyErr Bool :=
  match iso.validate_path_errs cwd path with
  | Except.ok _ => Except.ok true
  | Except.error (PyErr.permission _) => Except.ok false
  | Except.error e => Except.error e

/-- Model of `PurePath.relative_to`: the suffix of the target's segments
after the root's, failing (`ValueError`) when the root is not a prefix. -/
def PyPath.relative_to (q root : PyPath) : Except String (List Seg) :=
  if root.absolute == q.absolute && root.segs.isPrefixOf q.segs then
    Except.ok (q.segs.drop root.segs.length)
  else Except.error "path is not relative to the project root"

/-- Model of `ProjectIsolation.get_relative_path`: validate, then render the
validated path relative to the project root. -/
def ProjectIsolation.get_relative_path (iso : ProjectIsolation) (cwd : PyPath) (path : String) :
    Except String String :=
  match iso.validate_path cwd path with
  | Except.error e => Except.error e
  | Except.ok q =>
    match q.relative_to iso.project_root with
    | Except.error e => Except.error e
    | Except.ok segs => Except.ok (relPathStr segs)

/-- Process-wide mutable state touched by the security core: the working
directory (mutated by `sandbox_exec` via `os.chdir`) and a flat filesystem. -/
structure World where
  cwd : PyPath
  fs : List (PyPath × String)

/-- Model of `ProjectIsolation.sandbox_exec`: record the working directory,
pin it to the project root, run the callback (which may itself move the
working directory, touch the filesystem, raise an exception of type `ε`, or
return an `α`), and restore the recorded working directory on every exit
path, as the `finally` block does. -/
def ProjectIsolation.sandbox_exec {ε α : Type} (iso : ProjectIsolation)
    (func : World → Except ε α × World) (w : World) : Except ε α × World :=
  let old_cwd := w.cwd
  let res := func { w with cwd := iso.project_root }
  (res.1, { res.2 with cwd := old_cwd })

/-! ## OWASP validator (`owasp_validator.py`)

The pattern tables use a small regular-expression language: single-character
predicates, sequencing, alternation (left-preferring, as Python), greedy
star and optional over character predicates (the only shapes that occur in
the source tables), and word boundaries. The matcher is a backtracking
matcher in continuation-passing style returning the length of the (greedy)
match Python's engine would produce; `finditer` scans left to right and
resumes after each match, as `re.finditer` does. -/

/-- Regular expressions as used by the OWASP pattern tables. -/
inductive Regex where
  | eps : Regex
  | chr (p : Char → Bool) : Regex
  | seq (a b : Regex) : Regex
  | alt (a b : Regex) : Regex
  | starc (p : Char → Bool) : Regex
  | optc (p : Char → Bool) : Regex
  | wb : Regex

/-- A word character in the `\w` and `\b` sense (ASCII model). -/
def isWordChar (c : Char) : Bool := c.isAlphanum || c == '_'

/-- Whether the boundary between `prev` and the head of `s` is a word
boundary (`\b`). -/
def atWordBoundary (prev : Option Char) (s : List Char) : Bool :=
  (match prev with
   | none => false
   | some c => isWordChar c) !=
  (match s with
   | [] => false
   | c :: _ => isWordChar c)

/-- Greedy star over a character predicate, in continuation-passing style:
consume as many matching characters as possible, backtracking one at a time
when the continuation fails. Returns total characters consumed. -/
def matchStar (p : Char → Bool) (prev : Option Char) (s : List Char)
    (k : Option Char → List Char → Option Nat) : Option Nat :=
  match s with
  | [] => k prev []
  | c :: rest =>
    if p c then
      match matchStar p (some c) rest k with
      | some n => some (n + 1)
      | none => k prev (c :: rest)
    else k prev (c :: rest)

/-- Backtracking matcher: `mtch r prev s k` matches `r` at the head of `s`
(with `prev` the character before the current position, for `\b`) and then
runs the continuation `k`, returning the total number of characters consumed
by `r` and `k` together, or `none` when no alternative succeeds. Preference
order mirrors Python: alternation tries the left branch first, star and
optional are greedy. -/
def mtch : Regex → Option Char → List Char → (Option Char → List Char → Option Nat) → Option Nat
  | Regex.eps, prev, s, k => k prev s
  | Regex.chr p, _, s, k =>
    match s with
    | [] => none
    | c :: rest =>
      if p c then
        match k (some c) rest with
        | some n => some (n + 1)
        | none => none
      else none
  | Regex.seq a b, prev, s, k => mtch a prev s (fun p2 s2 => mtch b p2 s2 k)
  | Regex.alt a b, prev, s, k =>
    match mtch a prev s k with
    | some n => some n
    | none => mtch b prev s k
  | Regex.starc p, prev, s, k => matchStar p prev s k
  | Regex.optc p, prev, s, k =>
    match s with
    | [] => k prev []
    | c :: rest =>
      if p c then
        match k (some c) rest with
        | some n => some (n + 1)
        | none => k prev (c :: rest)
      else k prev (c :: rest)
  | Regex.wb, prev, s, k => if atWordBoundary prev s then k prev s else none

/-- Length of the match of `r` at the current position, if any. -/
def matchLen (r : Regex) (prev : Option Char) (s : List Char) : Option Nat :=
  mtch r prev s (fun _ _ => some 0)

/-- Scan of `re.finditer`: try each position left to right; on a match of
positive length record `(start, length)` and resume after it, otherwise
advance one character. `fuel` bounds the recursion by the input length. -/
def finditerAux : Nat → Regex → Option Char → List Char → Nat → List (Nat × Nat)
  | 0, _, _, _, _ => []
  | fuel + 1, r, prev, s, pos =>
    match matchLen r prev s with
    | some (len + 1) =>
      (pos, len + 1) ::
        finditerAux fuel r ((s.take (len + 1)).getLast?) (s.drop (len + 1)) (pos + (len + 1))
    | some 0 =>
      (pos, 0) ::
        (match s with
         | [] => []
         | c :: rest => finditerAux fuel r (some c) rest (pos + 1))
    | none =>
      match s with
      | [] => []
      | c :: rest => finditerAux fuel r (some c) rest (pos + 1)

/-- All non-overlapping matches of `r` in `cs` (start position and length). -/
def finditer (r : Regex) (cs : List Char) : List (Nat × Nat) :=
  finditerAux (cs.length + 1) r none cs 0

/-- An ASCII single quote, kept out of string literals. -/
def squote : Char := Char.ofNat 39

/-- An opening curly brace, kept out of string literals. -/
def lbrace : Char := Char.ofNat 123

/-- A closing curly brace, kept out of string literals. -/
def rbrace : Char := Char.ofNat 125

/-- Case-sensitive single character. -/
def rchar (c : Char) : Regex := Regex.chr (fun d => d == c)

/-- Case-insensitive single character (the `(?i)` flag). -/
def rchari (c : Char) : Regex := Regex.chr (fun d => d.toLower == c.toLower)

/-- Case-sensitive literal string. -/
def rstr (s : String) : Regex := s.data.foldr (fun c r => Regex.seq (rchar c) r) Regex.eps

/-- Case-insensitive literal string. -/
def rstri (s : String) : Regex := s.data.foldr (fun c r => Regex.seq (rchari c) r) Regex.eps

/-- Sequence a list of regexes. -/
def rseqs (l : List Regex) : Regex := l.foldr Regex.seq Regex.eps

/-- The `.` metacharacter: any character except a newline. -/
def dotChar (c : Char) : Bool := !(c == '\n')

/-- Greedy `.*`. -/
def rdotStar : Regex := Regex.starc dotChar

/-- The `\s` class: Python whitespace (space, tab, newline, vertical tab,
form feed, carriage return). -/
def wsChar (c : Char) : Bool :=
  c == ' ' || c == '\t' || c == '\n' || c == '\x0b' || c == '\x0c' || c == '\r'

/-- Greedy `\s*`. -/
def rwsStar : Regex := Regex.starc wsChar

/-- The `['\"]` class: a single or double quote. -/
def quoteChar (c : Char) : Bool := c == squote || c == '"'

/-- SQL Injection patterns (`OWASPValidator.SQL_PATTERNS`), in table order. -/
def SQL_PATTERNS : List (Regex × String) :=
  [(rseqs [Regex.wb, rstri "SELECT", Regex.wb, rdotStar, Regex.wb, rstri "FROM", Regex.wb,
      rdotStar, Regex.wb, rstri "WHERE", Regex.wb, rdotStar, rchar '=', rwsStar,
      Regex.optc quoteChar, rwsStar, rchar '+'], "SQL concatenation"),
   (rseqs [Regex.wb, rstri "INSERT", Regex.wb, rdotStar, Regex.wb, rstri "INTO", Regex.wb,
      rdotStar, Regex.wb, rstri "VALUES", Regex.wb, rdotStar, rchar '+'],
      "SQL INSERT concatenation"),
   (rseqs [Regex.wb, rstri "UPDATE", Regex.wb, rdotStar, Regex.wb, rstri "SET", Regex.wb,
      rdotStar, rchar '=', rdotStar, rchar '+'], "SQL UPDATE concatenation"),
   (rseqs [Regex.wb, rstri "DELETE", Regex.wb, rdotStar, Regex.wb, rstri "FROM", Regex.wb,
      rdotStar, Regex.wb, rstri "WHERE", Regex.wb, rdotStar, rchar '+'],
      "SQL DELETE concatenation"),
   (rseqs [rstri "execute", rwsStar, rchar '(', rwsStar, Regex.chr quoteChar, rdotStar,
      rchar '+'], "Dynamic SQL execution"),
   (rseqs [rchari 'f', Regex.chr quoteChar, rdotStar, rchar lbrace, rdotStar, rchar rbrace,
      rdotStar, rstri "SELECT"], "F-string SQL query"),
   (rseqs [rchari 'f', Regex.chr quoteChar, rdotStar, rchar lbrace, rdotStar, rchar rbrace,
      rdotStar, rstri "INSERT"], "F-string SQL query"),
   (rseqs [rchari 'f', Regex.chr quoteChar, rdotStar, rchar lbrace, rdotStar, rchar rbrace,
      rdotStar, rstri "UPDATE"], "F-string SQL query"),
   (rseqs [rchari 'f', Regex.chr quoteChar, rdotStar, rchar lbrace, rdotStar, rchar rbrace,
      rdotStar, rstri "DELETE"], "F-string SQL query")]

/-- XSS patterns (`OWASPValidator.XSS_PATTERNS`), in table order; the inline
script-tag pattern carries no `(?i)` flag in the source and is matched
case-sensitively. -/
def XSS_PATTERNS : List (Regex × String) :=
  [(rseqs [rstri "innerHTML", rwsStar, rchar '='], "Direct innerHTML assignment"),
   (rseqs [rstri "document", rchar '.', rstri "write", rwsStar, rchar '('],
      "document.write usage"),
   (rseqs [rstri "eval", rwsStar, rchar '('], "eval() usage"),
   (rseqs [rstr "<script", rdotStar, rchar '>', rdotStar, rstr "</script>"],
      "Inline script tag"),
   (rseqs [rstri "on", Regex.chr isWordChar, Regex.starc isWordChar, rwsStar, rchar '=',
      rwsStar, Regex.chr quoteChar], "Inline event handler")]

/-- Command Injection patterns (`OWASPValidator.CMD_PATTERNS`), in order. -/
def CMD_PATTERNS : List (Regex × String) :=
  [(rseqs [rstri "os", rchar '.', rstri "system", rwsStar, rchar '(', rdotStar, rchar '+'],
      "os.system with concatenation"),
   (rseqs [rstri "subprocess", rchar '.',
      Regex.alt (rstri "run") (Regex.alt (rstri "call") (rstri "Popen")),
      rwsStar, rchar '(', rdotStar, rchar '+'], "subprocess with concatenation"),
   (rseqs [rstri "exec", rwsStar, rchar '(', rdotStar, rchar '+'], "exec with concatenation"),
   (rseqs [rstri "shell", rwsStar, rchar '=', rwsStar, rstri "True"], "shell=True in subprocess"),
   (rseqs [rstri "os", rchar '.', rstri "popen", rwsStar, rchar '('], "os.popen usage")]

/-- Path Traversal patterns (`OWASPValidator.PATH_PATTERNS`), in order; the
raw source patterns `\.\.\\\\` and `C:\\\\Windows` denote two literal
backslashes. -/
def PATH_PATTERNS : List (Regex × String) :=
  [(rstr "../", "Parent directory traversal"),
   (rseqs [rchar '.', rchar '.', rchar '\\', rchar '\\'], "Windows parent directory traversal"),
   (rstri "/etc/passwd", "Access to /etc/passwd"),
   (rstri "/etc/shadow", "Access to /etc/shadow"),
   (rseqs [rstri "C:", rchar '\\', rchar '\\', rstri "Windows"], "Windows system directory")]

/-- SSRF patterns (`OWASPValidator.SSRF_PATTERNS`), in table order. -/
def SSRF_PATTERNS : List (Regex × String) :=
  [(rseqs [rstri "requests", rchar '.',
      Regex.alt (rstri "get") (Regex.alt (rstri "post") (Regex.alt (rstri "put") (rstri "delete"))),
      rwsStar, rchar '(', rdotStar, rchar '+'], "HTTP request with concatenation"),
   (rseqs [rstri "urllib", rchar '.', rstri "request", rchar '.', rstri "urlopen", rwsStar,
      rchar '(', rdotStar, rchar '+'], "urlopen with concatenation"),
   (rseqs [rstri "http", rchar '.', rstri "client"], "http.client usage"),
   (Regex.alt (rstri "127.0.0.1") (rstri "localhost"), "Localhost access"),
   (rstri "169.254.", "AWS metadata IP")]

/-- The category table built by `OWASPValidator.__init__`, in insertion
order. -/
def patternTable : List (String × List (Regex × String)) :=
  [("A03:2021-Injection-SQL", SQL_PATTERNS),
   ("A03:2021-Injection-XSS", XSS_PATTERNS),
   ("A03:2021-Injection-CMD", CMD_PATTERNS),
   ("A01:2021-Broken Access Control", PATH_PATTERNS),
   ("A10:2021-SSRF", SSRF_PATTERNS)]

/-- Substring test (`needle in haystack` on Python strings). -/
def isSubstr (needle : List Char) : List Char → Bool
  | [] => needle.isEmpty
  | c :: t => needle.isPrefixOf (c :: t) || isSubstr needle t

/-- Model of `OWASPValidator._get_severity`: severity is chosen by substring
tests on the category name. -/
def get_severity (category : String) : String :=
  if isSubstr "Injection".data category.data then "critical"
  else if isSubstr "Access Control".data category.data then "high"
  else if isSubstr "SSRF".data category.data then "high"
  else "medium"

/-- Model of `OWASPValidator._get_remediation`: fixed per-category text with
a default. -/
def get_remediation (category : String) : String :=
  if category == "A03:2021-Injection-SQL" then
    "Use parameterized queries or ORM instead of string concatenation"
  else if category == "A03:2021-Injection-XSS" then
    "Sanitize user input and use Content Security Policy"
  else if category == "A03:2021-Injection-CMD" then
    "Avoid shell=True and use array-based subprocess calls"
  else if category == "A01:2021-Broken Access Control" then
    "Validate and sanitize all file paths, use allowlists"
  else if category == "A10:2021-SSRF" then
    "Validate URLs against allowlist, block internal IPs"
  else "Review and fix the identified vulnerability"

/-- A detected vulnerability (`owasp_validator.Vulnerability`); `location`
and `remediation` are always populated by `validate`. -/
structure Vulnerability where
  id : String
  category : String
  severity : String
  title : String
  description : String
  location : String
  remediation : String
deriving DecidableEq, Repr

/-- The scanner's report (`owasp_validator.ValidationResult`); the source's
float score is exact integer arithmetic on the values produced, modelled as
`Int`. -/
structure ValidationResult where
  valid : Bool
  vulnerabilities : List Vulnerability
  compliance_score : Int
deriving DecidableEq, Repr

/-- Zero-padded four-digit id fragment (`f"OWASP-{vuln_id:04d}"`). -/
def pad4 (n : Nat) : String :=
  let s := toString n
  String.mk (List.replicate (4 - s.length) '0' ++ s.data)

/-- All pattern matches over the category tables, in the nested loop order
of `OWASPValidator.validate`: `(category, description, match start)`. -/
def collectMatches (cs : List Char) : List (String × String × Nat) :=
  (patternTable.map (fun cp =>
    (cp.2.map (fun pd => (finditer pd.1 cs).map (fun m => (cp.1, pd.2, m.1)))).flatten)).flatten

/-- The vulnerability records built by `OWASPValidator.validate`: sequential
one-based zero-padded ids, category severity, per-match line numbers counted
from newlines before the match offset, and per-category remediation. -/
def scanVulnerabilities (code : String) : List Vulnerability :=
  (collectMatches code.data).enum.map (fun im =>
    { id := "OWASP-" ++ pad4 (im.1 + 1),
      category := im.2.1,
      severity := get_severity im.2.1,
      title := im.2.2.1,
      description := "Potential " ++ im.2.2.1 ++ " vulnerability detected",
      location := "Line " ++ toString ((code.data.take im.2.2.2).count '\n' + 1),
      remediation := get_remediation im.2.1 })

/-- Count the vulnerabilities of a given severity, as the generator
expressions in `OWASPValidator.validate` do. -/
def countSeverity (vs : List Vulnerability) (sev : String) : Nat :=
  (vs.filter (fun v => v.severity == sev)).length

/-- Model of `OWASPValidator.validate`: collect the vulnerabilities, deduct
25, 15 and 5 points per critical, high and medium finding from 100 clamping
at 0, and set `valid` exactly when no critical or high finding exists. -/
def validate (code : String) : ValidationResult :=
  let vulnerabilities := scanVulnerabilities code
  let critical_count := countSeverity vulnerabilities "critical"
  let high_count := countSeverity vulnerabilities "high"
  let medium_count := countSeverity vulnerabilities "medium"
  let score : Int :=
    max 0 (100 - (critical_count : Int) * 25 - (high_count : Int) * 15 - (medium_count : Int) * 5)
  let valid :=
    ((vulnerabilities.filter (fun v => v.severity == "critical" || v.severity == "high")).length
      == 0)
  { valid := valid, vulnerabilities := vulnerabilities, compliance_score := score }

/-! ## Secure executor (`secure_executor.py`)

Python runtime values are modelled by `PyVal`; the `exec` primitive itself
is not part of the repository, so `execute` takes it as an abstract
parameter `pyExec` that receives the source text, the prepared globals
dictionary and the world, and reports the final globals (or the raised
exception message), the captured stdout and stderr texts, and the world it
left behind. -/

/-- A Python runtime value as far as the executor observes it. -/
inductive PyVal where
  | pynone : PyVal
  | pybool (b : Bool) : PyVal
  | int (n : Int) : PyVal
  | str (s : String) : PyVal
  | builtin (name : String) : PyVal
  | dict (entries : List (String × PyVal)) : PyVal
  | obj (n : Nat) : PyVal

/-- Result of one `exec` of caller code: the final globals dictionary or the
exception message, the captured stdout and stderr, and the world left
behind. -/
structure RunEffect where
  outcome : Except String (List (String × PyVal))
  stdout : String
  stderr : String
  world : World

/-- The abstract Python `exec` primitive. -/
abbrev PyExec := String → List (String × PyVal) → World → RunEffect

/-- The fixed allow-list (`DEFAULT_AUTHORIZED_IMPORTS`). -/
def DEFAULT_AUTHORIZED_IMPORTS : List String :=
  ["json", "math", "datetime", "re", "collections", "itertools", "functools", "typing",
   "dataclasses", "pathlib", "os.path", "statistics", "random", "string", "textwrap",
   "unicodedata"]

/-- The fixed deny list (`BLOCKED_IMPORTS`). -/
def BLOCKED_IMPORTS : List String :=
  ["subprocess", "os.system", "os.popen", "os.spawn", "commands", "pty", "fcntl", "resource",
   "ctypes", "pickle", "marshal", "shelve", "__builtins__"]

/-- The executor's result value (`secure_executor.ExecutionResult`);
Python's `None` defaults become `PyVal.pynone` for `result` and `none` for
the optional strings. -/
structure ExecutionResult where
  success : Bool
  result : PyVal
  output : Option String
  error : Option String

/-- The executor (`secure_executor.SecurePythonExecutor`): the boundary
guard plus the collected allow-list (modelled as the concatenated list; the
source stores a set, and `execute` never reads it). -/
structure SecurePythonExecutor where
  isolation : ProjectIsolation
  authorized_imports : List String

/-- Model of `SecurePythonExecutor.__init__`: keep the guard and collect
the default allow-list plus the caller's additions. -/
def SecurePythonExecutor.init (project_isolation : ProjectIsolation)
    (additional_authorized_imports : Option (List String)) : SecurePythonExecutor :=
  { isolation := project_isolation,
    authorized_imports :=
      match additional_authorized_imports with
      | none => DEFAULT_AUTHORIZED_IMPORTS
      | some xs => DEFAULT_AUTHORIZED_IMPORTS ++ xs }

/-- The four textual idioms `_check_blocked_imports` searches for, for one
blocked module name. -/
def importPatterns (blocked : String) : List String :=
  ["import " ++ blocked, "from " ++ blocked,
   "__import__(" ++ String.mk [squote] ++ blocked ++ String.mk [squote],
   "__import__(\"" ++ blocked ++ "\""]

/-- Whether the source text contains one of the import idioms for `b`. -/
def hasBlockedPattern (code : String) (b : String) : Bool :=
  (importPatterns b).any (fun pat => isSubstr pat.data code.data)

/-- Model of `SecurePythonExecutor._check_blocked_imports`: every deny-list
module with a textual hit, in deny-list order. -/
def check_blocked_imports (code : String) : List String :=
  BLOCKED_IMPORTS.filter (hasBlockedPattern code)

/-- The curated builtins dictionary built by `_create_safe_globals`. -/
def safe_builtins : List (String × PyVal) :=
  (["abs", "all", "any", "ascii", "bin", "bool", "bytearray", "bytes", "callable", "chr",
    "complex", "dict", "dir", "divmod", "enumerate", "filter", "float", "format", "frozenset",
    "getattr", "hasattr", "hash", "hex", "id", "int", "isinstance", "issubclass", "iter",
    "len", "list", "map", "max", "min", "next", "object", "oct", "ord", "pow", "print",
    "range", "repr", "reversed", "round", "set", "slice", "sorted", "str", "sum", "tuple",
    "type", "zip", "Exception", "ValueError", "TypeError", "KeyError", "IndexError",
    "AttributeError", "RuntimeError"].map (fun n => (n, PyVal.builtin n))) ++
  [("None", PyVal.pynone), ("True", PyVal.pybool true), ("False", PyVal.pybool false)]

/-- Model of `SecurePythonExecutor._create_safe_globals`: the curated
builtins, module metadata, and the three injected capabilities (the file
capabilities are closures over the guard; the model records them as named
builtins). -/
def SecurePythonExecutor.create_safe_globals (ex : SecurePythonExecutor) :
    List (String × PyVal) :=
  [("__builtins__", PyVal.dict safe_builtins),
   ("__name__", PyVal.str "__main__"),
   ("__doc__", PyVal.pynone),
   ("secure_read_file", PyVal.builtin "secure_read_file"),
   ("secure_write_file", PyVal.builtin "secure_write_file"),
   ("get_project_root", PyVal.str (pathToStr ex.isolation.project_root))]

/-- The body of `run_code` inside `execute`: run the abstract `exec` on the
prepared globals, and on normal completion read the conventional output slot
`safe_globals.get("result", safe_globals.get("_", None))`; an exception
propagates together with the stdout captured so far. -/
def run_code_model (pyExec : PyExec) (code : String) (safe_globals : List (String × PyVal)) :
    World → Except (String × String) (PyVal × String × String) × World := fun w1 =>
  let eff := pyExec code safe_globals w1
  match eff.outcome with
  | Except.ok ns =>
    (Except.ok ((List.lookup "result" ns).getD ((List.lookup "_" ns).getD PyVal.pynone),
      eff.stdout, eff.stderr), eff.world)
  | Except.error e => (Except.error (e, eff.stdout), eff.world)

/-- Model of `SecurePythonExecutor.execute`: deny-check the literal source
text and return immediately on a hit; otherwise build the safe globals, run
the code under `sandbox_exec`, and assemble the result, mapping empty
captured streams to `None` as the source's truthiness tests do.
`timeout_ms` is accepted and never consulted, as in the source. -/
def SecurePythonExecutor.execute (ex : SecurePythonExecutor) (pyExec : PyExec) (code : String)
    (timeout_ms : Int) (w : World) : ExecutionResult × World :=
  let blocked := check_blocked_imports code
  if blocked.isEmpty then
    let safe_globals := ex.create_safe_globals
    let r := ex.isolation.sandbox_exec (run_code_model pyExec code safe_globals) w
    match r.1 with
    | Except.ok v =>
      ({ success := true, result := v.1,
         output := if v.2.1 == "" then none else some v.2.1,
         error := if v.2.2 == "" then none else some v.2.2 }, r.2)
    | Except.error e =>
      ({ success := false, result := PyVal.pynone,
         error := some e.1,
         output := if e.2 == "" then none else some e.2 }, r.2)
  else
    ({ success := false, result := PyVal.pynone, output := none,
       error := some ("Blocked import detected: " ++ String.intercalate ", " blocked) }, w)

/-- Model of `SecurePythonExecutor._secure_read_file`: validate the path
through the guard, then read it from the world's filesystem; a missing file
is an `IOError`. -/
def SecurePythonExecutor.secure_read_file (ex : SecurePythonExecutor) (w : World)
    (path : String) : Except String String :=
  match ex.isolation.validate_path w.cwd path with
  | Except.error e => Except.error e
  | Except.ok validated_path =>
    match List.lookup validated_path w.fs with
    | some content => Except.ok content
    | none => Except.error ("No such file or directory: " ++ path)

/-- Model of `SecurePythonExecutor._secure_write_file`: validate the path
through the guard, then store the content in the world's filesystem. -/
def SecurePythonExecutor.secure_write_file (ex : SecurePythonExecutor) (w : World)
    (path : String) (content : String) : Except String World :=
  match ex.isolation.validate_path w.cwd path with
  | Except.error e => Except.error e
  | Except.ok validated_path =>
    Except.ok { w with fs := (validated_path, content) :: w.fs }

/-! ## Spec-side definitions for claim C1

These two definitions follow the wording of the specification ("p resolved
directly when absolute, or joined to the project root and then resolved when
relative", "a descendant of or equal to the canonical project root") and are
compared against `validate_path` as translated from the source. -/

/-- The canonicalized form of a path string, as the specification words it. -/
def specCanonicalForm (iso : ProjectIsolation) (cwd : PyPath) (path : String) : PyPath :=
  if (parsePath path).absolute then PyPath.resolve cwd (parsePath path)
  else PyPath.resolve cwd (joinPath iso.project_root (parsePath path))

/-- Descendant-of-or-equal-to between canonical absolute paths, as the
specification words it. -/
def isDescendantOrEqual (t root : PyPath) : Bool :=
  root.absolute && t.absolute && root.segs.isPrefixOf t.segs

/-! ## Concrete fixtures used by witnesses -/

/-- A canonical project root `/prj`. -/
def rootPath0 : PyPath := { absolute := true, segs := [['p', 'r', 'j']] }

/-- A guard over `/prj` with auditing on, as `__init__` would build it. -/
def iso0 : ProjectIsolation := { project_root := rootPath0, enable_audit := true }

/-- A working directory `/tmp` for witnesses. -/
def cwd0 : PyPath := { absolute := true, segs := [['t', 'm', 'p']] }

/-- An initial world for witnesses: working directory `/tmp`, empty
filesystem. -/
def w0 : World := { cwd := cwd0, fs := [] }

/-- A stub `exec` primitive that binds nothing, prints nothing and leaves
the world alone. -/
def pyExecStub : PyExec := fun _ _ w => { outcome := Except.ok [], stdout := "", stderr := "", world := w }

/-- A stub `exec` primitive that models running `result = 2 + 2`: it binds
`result` to `4` and has no other effect. -/
def pyExecResult4 : PyExec := fun _ _ w =>
  { outcome := Except.ok [("result", PyVal.int 4)], stdout := "", stderr := "", world := w }

/-- A path string with an embedded NUL byte, on which `Path.resolve()`
raises `ValueError` rather than `PermissionError`. -/
def nulPath : String := String.mk ['a', Char.ofNat 0, 'b']

/-- The SQL-injection sample scanned by the specification's test property. -/
def c4Input : String :=
  "query = \"SELECT * FROM users WHERE id=" ++ String.mk [squote] ++ " + user_id"

/-! ## Helper lemmas -/

/-- Projection of `validate`: the vulnerability list. -/
theorem validate_vulnerabilities_eq (code : String) :
    (validate code).vulnerabilities = scanVulnerabilities code := rfl

/-- Projection of `validate`: the validity flag as the source computes it. -/
theorem validate_valid_eq (code : String) :
    (validate code).valid =
      (((scanVulnerabilities code).filter
          (fun v => v.severity == "critical" || v.severity == "high")).length == 0) := rfl

/-- Projection of `validate`: the score as the source computes it. -/
theorem validate_score_eq (code : String) :
    (validate code).compliance_score =
      max 0 (100 - (countSeverity (scanVulnerabilities code) "critical" : Int) * 25
        - (countSeverity (scanVulnerabilities code) "high" : Int) * 15
        - (countSeverity (scanVulnerabilities code) "medium" : Int) * 5) := rfl

/-- Unpacking of `baseClean`: a well-formed segment is nonempty, is not
`.`, and has no slash. -/
theorem baseClean_spec (s : Seg) (h : baseClean s = true) :
    s ≠ [] ∧ s ≠ ['.'] ∧ ∀ c ∈ s, ¬(c = '/') := by
  unfold baseClean at h
  rw [Bool.and_eq_true, Bool.and_eq_true] at h
  obtain ⟨⟨h1, h2⟩, h3⟩ := h
  refine ⟨?_, bne_iff_ne.mp h2, ?_⟩
  · intro hnil
    subst hnil
    simp at h1
  · intro c hc hcs
    subst hcs
    have h4 : s.contains '/' = false := by simpa using h3
    have h5 : s.contains '/' = true := List.elem_iff.mpr hc
    rw [h4] at h5
    simp at h5

/-- Unpacking of `PyPath.isCanonical`. -/
theorem isCanonical_spec (p : PyPath) (h : p.isCanonical = true) :
    p.absolute = true ∧ ∀ s ∈ p.segs, baseClean s = true ∧ ¬(s = ['.', '.']) := by
  unfold PyPath.isCanonical at h
  rw [Bool.and_eq_true, List.all_eq_true] at h
  refine ⟨h.1, fun s hs => ?_⟩
  have h2 := h.2 s hs
  rw [Bool.and_eq_true] at h2
  exact ⟨h2.1, bne_iff_ne.mp h2.2⟩

/-- Every piece produced by `splitAux` is slash-free, provided the
accumulator is. -/
theorem mem_splitAux_no_slash (cs : List Char) : ∀ cur, (∀ c ∈ cur, ¬(c = '/')) →
    ∀ s ∈ splitAux cur cs, ∀ c ∈ s, ¬(c = '/') := by
  induction cs with
  | nil =>
    intro cur hcur s hs c hc
    simp only [splitAux, List.mem_singleton] at hs
    subst hs
    exact hcur c (List.mem_reverse.mp hc)
  | cons a rest ih =>
    intro cur hcur s hs c hc
    simp only [splitAux] at hs
    by_cases ha : (a == '/') = true
    · rw [if_pos ha] at hs
      rcases List.mem_cons.mp hs with h1 | h1
      · subst h1
        exact hcur c (List.mem_reverse.mp hc)
      · exact ih [] (by simp) s h1 c hc
    · rw [if_neg ha] at hs
      refine ih (a :: cur) ?_ s hs c hc
      intro d hd
      rcases List.mem_cons.mp hd with h1 | h1
      · subst h1
        intro hda
        subst hda
        exact ha (by simp)
      · exact hcur d h1

/-- Every segment produced by `parseSegs` is well formed. -/
theorem parseSegs_clean (cs : List Char) : ∀ s ∈ parseSegs cs, baseClean s = true := by
  intro s hs
  unfold parseSegs at hs
  obtain ⟨hsplit, hpred⟩ := List.mem_filter.mp hs
  have hnoslash : ∀ c ∈ s, ¬(c = '/') :=
    mem_splitAux_no_slash cs [] (by simp) s hsplit
  unfold baseClean
  rw [Bool.and_eq_true]
  refine ⟨hpred, ?_⟩
  have hcontains : s.contains '/' = false := by
    cases hcont : s.contains '/' with
    | false => rfl
    | true => exact absurd rfl (hnoslash '/' (List.elem_iff.mp hcont))
  rw [hcontains]
  rfl

/-- Membership in a `normSegs` result comes from the accumulator or the
input. -/
theorem mem_normSegs (l : List Seg) : ∀ acc s, s ∈ normSegs acc l → s ∈ acc ∨ s ∈ l := by
  induction l with
  | nil =>
    intro acc s hs
    have hs2 : s ∈ acc.reverse := hs
    exact Or.inl (List.mem_reverse.mp hs2)
  | cons x rest ih =>
    intro acc s hs
    by_cases hx : (x == ['.', '.']) = true
    · cases acc with
      | nil =>
        have hs2 : s ∈ normSegs [] rest := by
          have e : normSegs [] (x :: rest) = normSegs [] rest := by simp [normSegs, hx]
          rwa [e] at hs
        rcases ih [] s hs2 with h1 | h1
        · exact absurd h1 (List.not_mem_nil s)
        · exact Or.inr (List.mem_cons_of_mem x h1)
      | cons y acc2 =>
        have hs2 : s ∈ normSegs acc2 rest := by
          have e : normSegs (y :: acc2) (x :: rest) = normSegs acc2 rest := by
            simp [normSegs, hx]
          rwa [e] at hs
        rcases ih acc2 s hs2 with h1 | h1
        · exact Or.inl (List.mem_cons_of_mem y h1)
        · exact Or.inr (List.mem_cons_of_mem x h1)
    · have hs2 : s ∈ normSegs (x :: acc) rest := by
        have e : normSegs acc (x :: rest) = normSegs (x :: acc) rest := by
          simp [normSegs, hx]
        rwa [e] at hs
      rcases ih (x :: acc) s hs2 with h1 | h1
      · rcases List.mem_cons.mp h1 with h2 | h2
        · rw [h2]
          exact Or.inr (List.mem_cons_self x rest)
        · exact Or.inl h2
      · exact Or.inr (List.mem_cons_of_mem x h1)

/-- A `normSegs` result contains no `..` segment, provided the accumulator
contains none. -/
theorem normSegs_no_dotdot (l : List Seg) : ∀ acc, (∀ s ∈ acc, ¬(s = ['.', '.'])) →
    ∀ s ∈ normSegs acc l, ¬(s = ['.', '.']) := by
  induction l with
  | nil =>
    intro acc hacc s hs
    have hs2 : s ∈ acc.reverse := hs
    exact hacc s (List.mem_reverse.mp hs2)
  | cons x rest ih =>
    intro acc hacc s hs
    by_cases hx : (x == ['.', '.']) = true
    · cases acc with
      | nil =>
        have hs2 : s ∈ normSegs [] rest := by
          have e : normSegs [] (x :: rest) = normSegs [] rest := by simp [normSegs, hx]
          rwa [e] at hs
        exact ih [] (by simp) s hs2
      | cons y acc2 =>
        have hs2 : s ∈ normSegs acc2 rest := by
          have e : normSegs (y :: acc2) (x :: rest) = normSegs acc2 rest := by
            simp [normSegs, hx]
          rwa [e] at hs
        exact ih acc2 (fun t ht => hacc t (List.mem_cons_of_mem y ht)) s hs2
    · have hs2 : s ∈ normSegs (x :: acc) rest := by
        have e : normSegs acc (x :: rest) = normSegs (x :: acc) rest := by
          simp [normSegs, hx]
        rwa [e] at hs
      refine ih (x :: acc) ?_ s hs2
      intro t ht
      rcases List.mem_cons.mp ht with h1 | h1
      · subst h1
        intro hteq
        subst hteq
        exact hx (by simp)
      · exact hacc t h1

/-- On a `..`-free input, `normSegs` is the identity (prefixed by the
reversed accumulator). -/
theorem normSegs_of_no_dotdot (l : List Seg) : ∀ acc, (∀ s ∈ l, ¬(s = ['.', '.'])) →
    normSegs acc l = acc.reverse ++ l := by
  induction l with
  | nil =>
    intro acc _
    simp [normSegs]
  | cons x rest ih =>
    intro acc h
    have hx : ¬((x == ['.', '.']) = true) := by
      have := h x (List.mem_cons_self x rest)
      simpa using this
    simp only [normSegs]
    rw [if_neg hx, ih (x :: acc) (fun s hs => h s (List.mem_cons_of_mem x hs))]
    simp

/-- Splitting a slash-free piece followed by a slash produces that piece and
continues on the rest. -/
theorem splitAux_append_slash (a : List Char) : ∀ cur rest, (∀ c ∈ a, ¬(c = '/')) →
    splitAux cur (a ++ '/' :: rest) = (cur.reverse ++ a) :: splitAux [] rest := by
  induction a with
  | nil =>
    intro cur rest _
    simp [splitAux]
  | cons x a2 ih =>
    intro cur rest h
    have hx : ¬((x == '/') = true) := by
      have := h x (List.mem_cons_self x a2)
      simpa using this
    have step : splitAux cur ((x :: a2) ++ '/' :: rest) =
        if (x == '/') = true then cur.reverse :: splitAux [] (a2 ++ '/' :: rest)
        else splitAux (x :: cur) (a2 ++ '/' :: rest) := rfl
    rw [step, if_neg hx, ih (x :: cur) rest (fun c hc => h c (List.mem_cons_of_mem x hc))]
    simp

/-- Splitting a slash-free character list yields the single piece. -/
theorem splitAux_no_slash (a : List Char) : ∀ cur, (∀ c ∈ a, ¬(c = '/')) →
    splitAux cur a = [cur.reverse ++ a] := by
  induction a with
  | nil =>
    intro cur _
    simp [splitAux]
  | cons x a2 ih =>
    intro cur h
    have hx : ¬((x == '/') = true) := by
      have := h x (List.mem_cons_self x a2)
      simpa using this
    have step : splitAux cur (x :: a2) =
        if (x == '/') = true then cur.reverse :: splitAux [] a2
        else splitAux (x :: cur) a2 := rfl
    rw [step, if_neg hx, ih (x :: cur) (fun c hc => h c (List.mem_cons_of_mem x hc))]
    simp

/-- Parsing inverts joining on a nonempty list of well-formed segments. -/
theorem parseSegs_joinSegs (l : List Seg) : l ≠ [] → (∀ s ∈ l, baseClean s = true) →
    parseSegs (joinSegs l) = l := by
  induction l with
  | nil => intro h; exact absurd rfl h
  | cons x rest ih =>
    intro _ hclean
    obtain ⟨hxne, hxdot, hxslash⟩ := baseClean_spec x (hclean x (List.mem_cons_self x rest))
    have hpred : (!x.isEmpty && x != ['.']) = true := by
      rw [Bool.and_eq_true]
      constructor
      · cases hxe : x with
        | nil => exact absurd hxe hxne
        | cons c t => rfl
      · exact bne_iff_ne.mpr hxdot
    cases rest with
    | nil =>
      unfold parseSegs
      rw [show joinSegs [x] = x from rfl, splitAux_no_slash x [] hxslash]
      simp [List.filter, hpred]
    | cons y rest2 =>
      unfold parseSegs
      rw [show joinSegs (x :: y :: rest2) = x ++ '/' :: joinSegs (y :: rest2) from rfl,
        splitAux_append_slash x [] (joinSegs (y :: rest2)) hxslash]
      have htail := ih (by simp) (fun s hs => hclean s (List.mem_cons_of_mem x hs))
      unfold parseSegs at htail
      simp only [List.reverse_nil, List.nil_append, List.filter_cons, hpred, if_pos]
      rw [htail]

/-- The joined form of a nonempty list of well-formed segments does not
begin with a slash. -/
theorem headIsSlash_joinSegs (l : List Seg) : l ≠ [] → (∀ s ∈ l, baseClean s = true) →
    headIsSlash (joinSegs l) = false := by
  intro hne hclean
  cases l with
  | nil => exact absurd rfl hne
  | cons x rest =>
    obtain ⟨hxne, _, hxslash⟩ := baseClean_spec x (hclean x (List.mem_cons_self x rest))
    obtain ⟨t, ht⟩ : ∃ t, joinSegs (x :: rest) = x ++ t := by
      cases rest with
      | nil => exact ⟨[], by simp [joinSegs]⟩
      | cons y rest2 => exact ⟨'/' :: joinSegs (y :: rest2), rfl⟩
    obtain ⟨c, x2, hx⟩ := List.exists_cons_of_ne_nil hxne
    have hc : ¬(c = '/') := by
      refine hxslash c ?_
      rw [hx]
      exact List.mem_cons_self c x2
    rw [ht, hx]
    show (c == '/') = false
    simpa using hc

/-! ## Claims -/

/-- C2: for every input source text the scanner's report satisfies the
invariant: `valid` is true exactly when no vulnerability in the returned
list has severity critical or high, and the compliance score equals
`max 0 (100 - 25*critical - 15*high - 5*medium)` counted over that list. -/
theorem c2_validation_result_invariant (code : String) :
    ((validate code).valid = true ↔
      ∀ v ∈ (validate code).vulnerabilities, ¬(v.severity = "critical" ∨ v.severity = "high")) ∧
    (validate code).compliance_score =
      max 0 (100 - 25 * (countSeverity (validate code).vulnerabilities "critical" : Int)
        - 15 * (countSeverity (validate code).vulnerabilities "high" : Int)
        - 5 * (countSeverity (validate code).vulnerabilities "medium" : Int)) := by
  constructor
  · rw [validate_valid_eq, validate_vulnerabilities_eq]
    rw [beq_iff_eq, List.length_eq_zero, List.filter_eq_nil_iff]
    constructor
    · intro h v hv
      have := h v hv
      simp only [Bool.or_eq_true, beq_iff_eq, not_or] at this
      tauto
    · intro h v hv
      have := h v hv
      simp only [Bool.or_eq_true, beq_iff_eq, not_or]
      tauto
  · rw [validate_score_eq, validate_vulnerabilities_eq]
    congr 1
    ring

/-- C4: scanning the exact sample text of the specification yields exactly
one vulnerability — a critical finding of the SQL-Injection category on the
first line — with `valid = false` and compliance score 75 (the Python float
75.0). -/
theorem c4_sql_injection_sample :
    validate c4Input =
      { valid := false,
        vulnerabilities :=
          [{ id := "OWASP-0001",
             category := "A03:2021-Injection-SQL",
             severity := "critical",
             title := "SQL concatenation",
             description := "Potential SQL concatenation vulnerability detected",
             location := "Line 1",
             remediation := "Use parameterized queries or ORM instead of string concatenation" }],
        compliance_score := 75 } := by
  decide

/-- C8: the pinned-directory scope restores the working directory that was
current at entry on every exit path — whatever the callback returns or
raises (the exception type `ε` and result type `α` are arbitrary, and the
callback may itself have moved the working directory) — while the guard
itself is an immutable value the scope never alters; the callback's outcome
and the remaining world state it produced are passed through untouched. -/
theorem c8_sandbox_exec_restores_cwd {ε α : Type} (iso : ProjectIsolation)
    (func : World → Except ε α × World) (w : World) :
    ((iso.sandbox_exec func w).2.cwd = w.cwd) ∧
    ((iso.sandbox_exec func w).1 = (func { w with cwd := iso.project_root }).1) ∧
    ((iso.sandbox_exec func w).2.fs = (func { w with cwd := iso.project_root }).2.fs) :=
  ⟨rfl, rfl, rfl⟩

/-- C5: the caller-supplied additional authorized-import set has no effect
on execution — for any guard, abstract `exec` primitive, code text, timeout
and world, executors built with any two addition sets produce identical
results and final worlds, because only the fixed deny list is consulted. -/
theorem c5_allowlist_has_no_effect (iso : ProjectIsolation) (s1 s2 : List String)
    (pyExec : PyExec) (code : String) (timeout_ms : Int) (w : World) :
    (SecurePythonExecutor.init iso (some s1)).execute pyExec code timeout_ms w =
      (SecurePythonExecutor.init iso (some s2)).execute pyExec code timeout_ms w := rfl

/-- C3: when the literal source text contains one of the import idioms
`import X`, `from X`, `__import__('X'`, `__import__("X"` for some deny-listed
module `X`, `execute` returns immediately with `success = false`, an error
message naming every blocked module found, `result` and `output` absent, and
the world untouched; the abstract `exec` primitive is irrelevant to the
outcome, so the code is never run. -/
theorem c3_blocked_import_short_circuits (ex : SecurePythonExecutor) (pyExec : PyExec)
    (code : String) (timeout_ms : Int) (w : World)
    (h : ∃ b ∈ BLOCKED_IMPORTS, hasBlockedPattern code b = true) :
    ex.execute pyExec code timeout_ms w =
      ({ success := false, result := PyVal.pynone, output := none,
         error := some ("Blocked import detected: " ++
           String.intercalate ", " (check_blocked_imports code)) }, w) := by
  obtain ⟨b, hb, hpat⟩ := h
  have hmem : b ∈ check_blocked_imports code := List.mem_filter.mpr ⟨hb, hpat⟩
  have hfalse : (check_blocked_imports code).isEmpty = false := by
    cases hcase : check_blocked_imports code with
    | nil => rw [hcase] at hmem; exact absurd hmem (List.not_mem_nil b)
    | cons a l => rfl
  unfold SecurePythonExecutor.execute
  simp only [hfalse, Bool.false_eq_true, if_false]

/-- Witness for C3: executing `import subprocess` hits the deny list and
short-circuits with the blocked-import error and an unchanged world. -/
theorem c3_blocked_import_short_circuits_witness :
    (∃ b ∈ BLOCKED_IMPORTS, hasBlockedPattern "import subprocess" b = true) ∧
    (SecurePythonExecutor.init iso0 none).execute pyExecStub "import subprocess" 60000 w0 =
      ({ success := false, result := PyVal.pynone, output := none,
         error := some ("Blocked import detected: " ++
           String.intercalate ", " (check_blocked_imports "import subprocess")) }, w0) :=
  ⟨by decide,
   c3_blocked_import_short_circuits (SecurePythonExecutor.init iso0 none) pyExecStub
     "import subprocess" 60000 w0 (by decide)⟩

/-- C9: on a run that completes without exception (the deny check passed
and the abstract `exec` finished with final globals `ns`), the `result`
field of the returned `ExecutionResult` is the value bound to `result` in
the executed code's namespace, else the value bound to `_`, else `None`. -/
theorem c9_result_slot_fallback (ex : SecurePythonExecutor) (pyExec : PyExec) (code : String)
    (timeout_ms : Int) (w : World) (ns : List (String × PyVal))
    (hb : check_blocked_imports code = [])
    (h : (pyExec code ex.create_safe_globals { w with cwd := ex.isolation.project_root }).outcome
      = Except.ok ns) :
    (∀ v, List.lookup "result" ns = some v →
      (ex.execute pyExec code timeout_ms w).1.result = v) ∧
    (List.lookup "result" ns = none → ∀ v, List.lookup "_" ns = some v →
      (ex.execute pyExec code timeout_ms w).1.result = v) ∧
    (List.lookup "result" ns = none → List.lookup "_" ns = none →
      (ex.execute pyExec code timeout_ms w).1.result = PyVal.pynone) := by
  have hres : (ex.execute pyExec code timeout_ms w).1.result =
      (List.lookup "result" ns).getD ((List.lookup "_" ns).getD PyVal.pynone) := by
    unfold SecurePythonExecutor.execute ProjectIsolation.sandbox_exec run_code_model
    simp only [hb, List.isEmpty_nil, if_true, h]
  refine ⟨?_, ?_, ?_⟩
  · intro v hv
    rw [hres, hv, Option.getD_some]
  · intro hnone v hv
    rw [hres, hnone, Option.getD_none, hv, Option.getD_some]
  · intro hnone hnone2
    rw [hres, hnone, Option.getD_none, hnone2, Option.getD_none]

/-- Witness for C9: running `result = 2 + 2` through an `exec` stub that
binds `result` to `4` yields an `ExecutionResult` whose `result` field is
`4`. -/
theorem c9_result_slot_fallback_witness :
    ((SecurePythonExecutor.init iso0 none).execute pyExecResult4 "result = 2 + 2" 60000 w0).1.result
      = PyVal.int 4 :=
  (c9_result_slot_fallback (SecurePythonExecutor.init iso0 none) pyExecResult4 "result = 2 + 2"
    60000 w0 [("result", PyVal.int 4)] (by decide) rfl).1 (PyVal.int 4) rfl

/-- On a NUL-free input the refined validation agrees with `validate_path`,
tagging its only failure as the `PermissionError`. -/
theorem validate_path_errs_agrees (iso : ProjectIsolation) (cwd : PyPath) (path : String)
    (h : path.data.contains (Char.ofNat 0) = false) :
    iso.validate_path_errs cwd path =
      (match iso.validate_path cwd path with
       | Except.ok q => Except.ok q
       | Except.error e => Except.error (PyErr.permission e)) := by
  unfold ProjectIsolation.validate_path_errs
  rw [h]
  rfl

/-- C6 (code bug): the check is not exception-free on every input — on the
NUL-containing path string, `Path.resolve()` raises
`ValueError("embedded null byte")`, and `is_safe_path` propagates it because
its `except` clause catches only `PermissionError` — contradicting both the
claim and the function's own docstring ("without raising exception"). The
second conjunct evaluates a NUL-free in-bound path, where the claimed
boolean behaviour does hold. -/
theorem c6_is_safe_path_nul_byte_raises :
    iso0.is_safe_path cwd0 nulPath = Except.error (PyErr.valueError "embedded null byte") ∧
    iso0.is_safe_path cwd0 "a.txt" = Except.ok true := ⟨rfl, rfl⟩

/-- C1: `validate_path` either succeeds with exactly the canonicalized form
of the path (resolved directly when absolute, joined to the project root
first when relative) or fails with the `PathTraversal` message, and it
succeeds precisely when that canonical form is a descendant of or equal to
the canonical project root. -/
theorem c1_validate_path_containment (iso : ProjectIsolation) (cwd : PyPath) (path : String)
    (h : iso.project_root.isCanonical = true) :
    (iso.validate_path cwd path = Except.ok (specCanonicalForm iso cwd path) ∨
     iso.validate_path cwd path = Except.error ("Path traversal detected: " ++ path)) ∧
    ((∃ q, iso.validate_path cwd path = Except.ok q) ↔
      isDescendantOrEqual (specCanonicalForm iso cwd path) iso.project_root = true) := by
  have hroot : iso.project_root.absolute = true := (isCanonical_spec iso.project_root h).1
  have habs : (specCanonicalForm iso cwd path).absolute = true := by
    unfold specCanonicalForm PyPath.resolve
    split
    · rfl
    · rfl
  have hbridge : iso.validate_path cwd path =
      (if (specCanonicalForm iso cwd path).is_relative_to iso.project_root then
        Except.ok (specCanonicalForm iso cwd path)
      else Except.error ("Path traversal detected: " ++ path)) := rfl
  rw [hbridge]
  by_cases hrel : (specCanonicalForm iso cwd path).is_relative_to iso.project_root = true
  · rw [if_pos hrel]
    refine ⟨Or.inl rfl, ?_⟩
    constructor
    · intro _
      unfold PyPath.is_relative_to at hrel
      unfold isDescendantOrEqual
      rw [hroot, habs] at hrel ⊢
      simpa using hrel
    · intro _
      exact ⟨specCanonicalForm iso cwd path, rfl⟩
  · rw [if_neg hrel]
    refine ⟨Or.inr rfl, ?_⟩
    constructor
    · rintro ⟨q, hq⟩
      exact absurd hq (by simp)
    · intro hdesc
      exfalso
      apply hrel
      unfold isDescendantOrEqual at hdesc
      unfold PyPath.is_relative_to
      rw [hroot, habs] at hdesc ⊢
      simpa using hdesc

/-- Witness for C1: over a canonical root `/prj`, validating `a.txt`
produces the resolved `/prj/a.txt`, which the containment predicate
accepts. -/
theorem c1_validate_path_containment_witness :
    iso0.project_root.isCanonical = true ∧
    ((iso0.validate_path cwd0 "a.txt" = Except.ok (specCanonicalForm iso0 cwd0 "a.txt") ∨
      iso0.validate_path cwd0 "a.txt" = Except.error ("Path traversal detected: " ++ "a.txt")) ∧
     ((∃ q, iso0.validate_path cwd0 "a.txt" = Except.ok q) ↔
       isDescendantOrEqual (specCanonicalForm iso0 cwd0 "a.txt") iso0.project_root = true)) :=
  ⟨by decide, c1_validate_path_containment iso0 cwd0 "a.txt" (by decide)⟩

/-- C10: validating the empty path string succeeds and returns the guard's
canonical root itself — the root counts as equal-to-root rather than being
rejected. -/
theorem c10_empty_path_returns_root (iso : ProjectIsolation) (cwd : PyPath)
    (h : iso.project_root.isCanonical = true) :
    iso.validate_path cwd "" = Except.ok iso.project_root := by
  obtain ⟨habs, hall⟩ := isCanonical_spec iso.project_root h
  have hns : normSegs [] (iso.project_root.segs ++ []) = iso.project_root.segs := by
    rw [List.append_nil, normSegs_of_no_dotdot iso.project_root.segs []
      (fun s hs => (hall s hs).2)]
    rfl
  have htarget : PyPath.resolve cwd (joinPath iso.project_root (parsePath "")) =
      iso.project_root := by
    have hjoin : joinPath iso.project_root (parsePath "") =
        { absolute := iso.project_root.absolute, segs := iso.project_root.segs ++ [] } := rfl
    rw [hjoin]
    unfold PyPath.resolve
    rw [habs]
    simp only [if_true, List.nil_append]
    rw [hns]
    cases hroot : iso.project_root with
    | mk a segs =>
      rw [hroot] at habs
      have ha : a = true := habs
      rw [ha]
  have hbridge : iso.validate_path cwd "" =
      (if (PyPath.resolve cwd (joinPath iso.project_root (parsePath ""))).is_relative_to
          iso.project_root then
        Except.ok (PyPath.resolve cwd (joinPath iso.project_root (parsePath "")))
      else Except.error ("Path traversal detected: " ++ "")) := rfl
  rw [hbridge, htarget]
  have hrel : iso.project_root.is_relative_to iso.project_root = true := by
    unfold PyPath.is_relative_to
    rw [Bool.and_eq_true]
    exact ⟨by simp, List.isPrefixOf_iff_prefix.mpr (List.prefix_refl iso.project_root.segs)⟩
  rw [if_pos hrel]

/-- Witness for C10: over the canonical root `/prj`, validating the empty
string returns `/prj` itself. -/
theorem c10_empty_path_witness :
    iso0.project_root.isCanonical = true ∧
    iso0.validate_path cwd0 "" = Except.ok iso0.project_root :=
  ⟨by decide, c10_empty_path_returns_root iso0 cwd0 (by decide)⟩

/-- Unfolding of `specCanonicalForm` on an absolute input path. -/
theorem specCanonicalForm_absolute (iso : ProjectIsolation) (cwd : PyPath) (path : String)
    (h : (parsePath path).absolute = true) :
    specCanonicalForm iso cwd path = PyPath.resolve cwd (parsePath path) := by
  unfold specCanonicalForm
  rw [if_pos h]

/-- Unfolding of `specCanonicalForm` on a relative input path. -/
theorem specCanonicalForm_relative (iso : ProjectIsolation) (cwd : PyPath) (path : String)
    (h : ¬((parsePath path).absolute = true)) :
    specCanonicalForm iso cwd path =
      PyPath.resolve cwd (joinPath iso.project_root (parsePath path)) := by
  unfold specCanonicalForm
  rw [if_neg h]

/-- Unfolding of `PyPath.resolve` on an absolute path. -/
theorem resolve_segs (cwd p : PyPath) (h : p.absolute = true) :
    PyPath.resolve cwd p = { absolute := true, segs := normSegs [] p.segs } := by
  unfold PyPath.resolve
  rw [h]
  simp

/-- Unfolding of `joinPath` on a relative right operand. -/
theorem join_rel (a b : PyPath) (h : b.absolute = false) :
    joinPath a b = { absolute := a.absolute, segs := a.segs ++ b.segs } := by
  unfold joinPath
  rw [h]
  simp

/-- C7: round-trip — for any in-bound path (one `validate_path` accepts),
joining the project root with `get_relative_path` of that path and
canonicalizing yields exactly the absolute path `validate_path` returned. -/
theorem c7_relative_path_roundtrip (iso : ProjectIsolation) (cwd : PyPath) (path : String)
    (q : PyPath) (r : String)
    (hc : iso.project_root.isCanonical = true)
    (hv : iso.validate_path cwd path = Except.ok q)
    (hr : iso.get_relative_path cwd path = Except.ok r) :
    PyPath.resolve cwd (joinPath iso.project_root (parsePath r)) = q := by
  obtain ⟨hrabs, hrall⟩ := isCanonical_spec iso.project_root hc
  have hbridge : iso.validate_path cwd path =
      (if (specCanonicalForm iso cwd path).is_relative_to iso.project_root then
        Except.ok (specCanonicalForm iso cwd path)
      else Except.error ("Path traversal detected: " ++ path)) := rfl
  rw [hbridge] at hv
  by_cases hrel0 : (specCanonicalForm iso cwd path).is_relative_to iso.project_root = true
  case neg =>
    rw [if_neg hrel0] at hv
    exact absurd hv (by simp)
  rw [if_pos hrel0] at hv
  have hq : q = specCanonicalForm iso cwd path := (Except.ok.inj hv).symm
  have hrel : q.is_relative_to iso.project_root = true := by
    rw [hq]
    exact hrel0
  have hmain : ∃ X, q = { absolute := true, segs := normSegs [] X } ∧
      (∀ s ∈ X, baseClean s = true) := by
    by_cases hPabs : (parsePath path).absolute = true
    · refine ⟨(parsePath path).segs, ?_, ?_⟩
      · rw [hq, specCanonicalForm_absolute iso cwd path hPabs, resolve_segs cwd _ hPabs]
      · intro s hs
        exact parseSegs_clean path.data s hs
    · have hPfalse : (parsePath path).absolute = false := by
        cases hb : (parsePath path).absolute with
        | false => rfl
        | true => exact absurd hb hPabs
      refine ⟨iso.project_root.segs ++ (parsePath path).segs, ?_, ?_⟩
      · rw [hq, specCanonicalForm_relative iso cwd path hPabs, join_rel _ _ hPfalse,
          resolve_segs cwd
            { absolute := iso.project_root.absolute,
              segs := iso.project_root.segs ++ (parsePath path).segs } hrabs]
      · intro s hs
        rcases List.mem_append.mp hs with h1 | h1
        · exact (hrall s h1).1
        · exact parseSegs_clean path.data s h1
  obtain ⟨X, hqeq, hXclean⟩ := hmain
  have hqabs : q.absolute = true := by
    rw [hqeq]
  have hqsegs_clean : ∀ s ∈ q.segs, baseClean s = true := by
    intro s hs
    rw [hqeq] at hs
    rcases mem_normSegs X [] s hs with h1 | h1
    · exact absurd h1 (List.not_mem_nil s)
    · exact hXclean s h1
  have hqsegs_nodd : ∀ s ∈ q.segs, ¬(s = ['.', '.']) := by
    intro s hs
    rw [hqeq] at hs
    exact normSegs_no_dotdot X [] (by simp) s hs
  have hpre : iso.project_root.segs.isPrefixOf q.segs = true := by
    unfold PyPath.is_relative_to at hrel
    exact (Bool.and_eq_true _ _ |>.mp hrel).2
  obtain ⟨rest, hrest⟩ := List.isPrefixOf_iff_prefix.mp hpre
  have hrel_to : q.relative_to iso.project_root = Except.ok rest := by
    unfold PyPath.relative_to
    rw [if_pos (by unfold PyPath.is_relative_to at hrel; exact hrel)]
    rw [← hrest, List.drop_left]
  have hrstr : r = relPathStr rest := by
    have h2 : iso.get_relative_path cwd path = Except.ok (relPathStr rest) := by
      simp only [ProjectIsolation.get_relative_path, hbridge, ← hq, hrel, eq_self_iff_true,
        if_true, hrel_to]
    rw [h2] at hr
    exact (Except.ok.inj hr).symm
  have hrest_clean : ∀ s ∈ rest, baseClean s = true := fun s hs =>
    hqsegs_clean s (by rw [← hrest]; exact List.mem_append_right _ hs)
  have hrest_nodd : ∀ s ∈ rest, ¬(s = ['.', '.']) := fun s hs =>
    hqsegs_nodd s (by rw [← hrest]; exact List.mem_append_right _ hs)
  cases rest with
  | nil =>
    have hqval : q = { absolute := true, segs := iso.project_root.segs } := by
      have h3 : q.segs = iso.project_root.segs := by
        rw [← hrest, List.append_nil]
      calc q = { absolute := q.absolute, segs := q.segs } := rfl
        _ = { absolute := true, segs := iso.project_root.segs } := by rw [hqabs, h3]
    have hrdot : r = "." := by
      rw [hrstr]
      rfl
    rw [hrdot, hqval]
    have hparse : parsePath "." = { absolute := false, segs := [] } := rfl
    rw [hparse, join_rel _ _ rfl,
      resolve_segs cwd
        { absolute := iso.project_root.absolute, segs := iso.project_root.segs ++ [] } hrabs]
    have hns2 : normSegs [] iso.project_root.segs = iso.project_root.segs := by
      rw [normSegs_of_no_dotdot iso.project_root.segs [] (fun s hs => (hrall s hs).2)]
      rfl
    simp [hns2]
  | cons y rest2 =>
    have hparse2 : parsePath r = { absolute := false, segs := y :: rest2 } := by
      rw [hrstr]
      show PyPath.mk (headIsSlash (joinSegs (y :: rest2))) (parseSegs (joinSegs (y :: rest2))) =
        { absolute := false, segs := y :: rest2 }
      rw [headIsSlash_joinSegs (y :: rest2) (by simp) hrest_clean,
        parseSegs_joinSegs (y :: rest2) (by simp) hrest_clean]
    have hnd : ∀ s ∈ iso.project_root.segs ++ y :: rest2, ¬(s = ['.', '.']) := by
      intro s hs
      rcases List.mem_append.mp hs with h1 | h1
      · exact (hrall s h1).2
      · exact hrest_nodd s h1
    have hqval : q = { absolute := true, segs := iso.project_root.segs ++ y :: rest2 } := by
      calc q = { absolute := q.absolute, segs := q.segs } := rfl
        _ = { absolute := true, segs := iso.project_root.segs ++ y :: rest2 } := by
          rw [hqabs, ← hrest]
    rw [hparse2, join_rel _ _ rfl,
      resolve_segs cwd
        { absolute := iso.project_root.absolute,
          segs := iso.project_root.segs ++ y :: rest2 } hrabs,
      hqval]
    have hns3 : normSegs [] (iso.project_root.segs ++ y :: rest2) =
        iso.project_root.segs ++ y :: rest2 := by
      rw [normSegs_of_no_dotdot _ [] hnd]
      rfl
    simp [hns3]

/-- The validated form of `a/b` over the root `/prj`, used by the C7
witness. -/
def q7 : PyPath := { absolute := true, segs := [['p', 'r', 'j'], ['a'], ['b']] }

/-- Witness for C7: over the canonical root `/prj`, the in-bound path `a/b`
validates to `/prj/a/b`, its relative form is `a/b`, and rejoining and
resolving that relative form gives back `/prj/a/b`. -/
theorem c7_relative_path_roundtrip_witness :
    iso0.project_root.isCanonical = true ∧
    iso0.validate_path cwd0 "a/b" = Except.ok q7 ∧
    iso0.get_relative_path cwd0 "a/b" = Except.ok "a/b" ∧
    PyPath.resolve cwd0 (joinPath iso0.project_root (parsePath "a/b")) = q7 :=
  ⟨by decide, rfl, rfl,
   c7_relative_path_roundtrip iso0 cwd0 "a/b" q7 "a/b" (by decide) rfl rfl⟩
